import Mathlib

/-
  Shallow embedding of the RAG/streaming core of the nexusai repository:
  - src/services/chunking_service.py (ChunkingService)
  - src/services/ai_service.py (classify_error, trim_to_token_budget, AIService.stream)
  - src/services/embedding_service.py (EmbeddingService.embed_texts)
  - src/services/vector_store.py (VectorStore.add / VectorStore.search, numpy fallback path)

  Python strings are modelled as Lean String, ints as Nat, floats as ℝ.
  Recursions over character lists that are not structural use a fuel argument
  initialised to the list length (each step consumes at least one character,
  so the fuel never runs out); this keeps every definition computable.
-/

namespace NexusAI

/-- Python regex whitespace class over ASCII: space, tab, newline, carriage
return, vertical tab, form feed. -/
def isPySpace (c : Char) : Bool :=
  c = ' ' || c = '\t' || c = '\n' || c = '\r' || c = Char.ofNat 11 || c = Char.ofNat 12

/-- Python str.strip(): drop leading and trailing whitespace. -/
def pyStrip (s : String) : String :=
  ⟨((s.data.dropWhile isPySpace).reverse.dropWhile isPySpace).reverse⟩

/-- Python str.lower() (ASCII range; the classified error strings are
ASCII). -/
def pyLower (s : String) : String := ⟨s.data.map Char.toLower⟩

/-- Index of the last newline inside a character list, if any. -/
def lastNewlineIdx (l : List Char) : Option Nat :=
  match l.reverse.findIdx? (fun c => c = '\n') with
  | some j => some (l.length - 1 - j)
  | none => none

/-- After an opening newline, the regex tail of a paragraph separator:
greedy match of the pattern backslash-s-star followed by a newline.
Returns the index (into `rest`) of the final newline of the separator. -/
def sepEnd (rest : List Char) : Option Nat :=
  lastNewlineIdx (rest.takeWhile isPySpace)

/-- Splitter used by ChunkingService._split_into_paragraphs: re.split on a
newline, optional whitespace, newline separator. Fuelled recursion. -/
def paraSplitF : Nat → List Char → List Char → List (List Char)
  | 0, _, acc => [acc.reverse]
  | _ + 1, [], acc => [acc.reverse]
  | fuel + 1, c :: rest, acc =>
    if c = '\n' then
      match sepEnd rest with
      | some k => acc.reverse :: paraSplitF fuel (rest.drop (k + 1)) []
      | none => paraSplitF fuel rest (c :: acc)
    else paraSplitF fuel rest (c :: acc)

/-- ChunkingService._split_into_paragraphs: split on blank-line boundaries,
strip each piece, keep the non-empty ones. -/
def splitIntoParagraphs (text : String) : List String :=
  ((paraSplitF text.data.length text.data []).map (fun l => pyStrip ⟨l⟩)).filter
    (fun s => s != "")

/-- Sentence-ending punctuation used by the sentence splitter lookbehind. -/
def isSentEnd (c : Char) : Bool := c = '.' || c = '!' || c = '?'

/-- Splitter used by ChunkingService._split_into_sentences: re.split on a
whitespace run preceded by a sentence-ending character. Fuelled recursion. -/
def sentSplitF : Nat → List Char → Option Char → List Char → List (List Char)
  | 0, _, _, acc => [acc.reverse]
  | _ + 1, [], _, acc => [acc.reverse]
  | fuel + 1, c :: rest, prev, acc =>
    if isPySpace c && (match prev with | some p => isSentEnd p | none => false) then
      acc.reverse ::
        sentSplitF fuel (rest.drop (rest.takeWhile isPySpace).length) (some ' ') []
    else sentSplitF fuel rest (some c) (c :: acc)

/-- ChunkingService._split_into_sentences. -/
def splitIntoSentences (text : String) : List String :=
  ((sentSplitF text.data.length text.data none []).map (fun l => pyStrip ⟨l⟩)).filter
    (fun s => s != "")

/-- Chunking configuration: the four sizes stored by ChunkingService.__init__
(which performs no validation on them). -/
structure ChunkingConfig where
  targetChunkSize : Nat
  minChunkSize : Nat
  maxChunkSize : Nat
  overlapTokens : Nat
deriving DecidableEq

/-- The ChunkingService constructor defaults. -/
def defaultChunkingConfig : ChunkingConfig := ⟨500, 100, 800, 50⟩

/-- ChunkingService.count_tokens in its tokenizer-free fallback form:
len(text) // 4. -/
def count_tokens (text : String) : Nat := text.length / 4

/-- Loop body of ChunkingService._get_overlap_text: walk sentences from the
end, growing the overlap while it stays within the overlap budget; stop at
the first sentence that does not fit. -/
def overlapLoop (cfg : ChunkingConfig) : List String → String → String
  | [], ov => ov
  | s :: rest, ov =>
    let test := if ov ≠ "" then s ++ " " ++ ov else s
    if count_tokens test ≤ cfg.overlapTokens then overlapLoop cfg rest test else ov

/-- ChunkingService._get_overlap_text. -/
def getOverlapText (cfg : ChunkingConfig) (text : String) : String :=
  if text = "" then "" else pyStrip (overlapLoop cfg (splitIntoSentences text).reverse "")

/-- The Chunk dataclass of chunking_service.py. -/
structure Chunk where
  text : String
  start_idx : Nat
  end_idx : Nat
  source : String
  chunk_id : Nat
  token_count : Nat
deriving DecidableEq

/-- Loop state of ChunkingService.chunk_text. -/
structure ChunkState where
  chunks : List Chunk
  current : String
  currentStart : Nat
  chunkId : Nat
  charPos : Nat
deriving DecidableEq

/-- One iteration of the paragraph loop in ChunkingService.chunk_text. -/
def chunkStep (cfg : ChunkingConfig) (source : String) (st : ChunkState) (para : String) :
    ChunkState :=
  let paraTokens := count_tokens para
  let currentTokens := count_tokens st.current
  if st.current ≠ "" ∧ currentTokens + paraTokens > cfg.maxChunkSize then
    let st1 :=
      if currentTokens ≥ cfg.minChunkSize then
        { st with
          chunks := st.chunks ++
            [⟨pyStrip st.current, st.currentStart, st.charPos, source, st.chunkId,
              currentTokens⟩]
          chunkId := st.chunkId + 1 }
      else st
    let overlap := getOverlapText cfg st.current
    { st1 with
      current := if overlap ≠ "" then overlap ++ "\n\n" ++ para else para
      currentStart := st.charPos
      charPos := st.charPos + para.length + 2 }
  else
    { st with
      current := if st.current ≠ "" then st.current ++ "\n\n" ++ para else para
      currentStart := if st.current ≠ "" then st.currentStart else st.charPos
      charPos := st.charPos + para.length + 2 }

/-- ChunkingService.chunk_text: accumulate paragraphs greedily, then emit the
trailing buffer only when it reaches min_chunk_size. -/
def chunk_text (cfg : ChunkingConfig) (text : String) (source : String) : List Chunk :=
  if text = "" ∨ pyStrip text = "" then []
  else
    let st := (splitIntoParagraphs text).foldl (chunkStep cfg source) ⟨[], "", 0, 0, 0⟩
    if st.current ≠ "" ∧ count_tokens st.current ≥ cfg.minChunkSize then
      st.chunks ++
        [⟨pyStrip st.current, st.currentStart, st.charPos, source, st.chunkId,
          count_tokens st.current⟩]
    else st.chunks

/-- The ChatMessage dataclass of ai_service.py (timestamp omitted: it is
never read by the modelled code). -/
structure ChatMessage where
  role : String
  content : String
deriving DecidableEq

/-- estimate_tokens: len(text) // 4. -/
def estimate_tokens (text : String) : Nat := text.length / 4

/-- MAX_TOKEN_BUDGET constant. -/
def MAX_TOKEN_BUDGET : Nat := 8000

/-- Python list.insert(n, a): insert before position n, clamping to append
when n is past the end. -/
def pyInsert (n : Nat) (a : ChatMessage) (l : List ChatMessage) : List ChatMessage :=
  match n, l with
  | 0, l => a :: l
  | _ + 1, [] => [a]
  | n + 1, x :: xs => x :: pyInsert n a xs

/-- The scan loop of trim_to_token_budget: walk the non-system messages from
newest to oldest, inserting each message that still fits at position 1 when
the result is non-empty (position 0 otherwise), stopping at the first message
that does not fit. -/
def trimLoop (budget : Nat) : List ChatMessage → List ChatMessage → Nat → List ChatMessage
  | [], result, _ => result
  | m :: ms, result, cur =>
    let t := estimate_tokens m.content
    if cur + t ≤ budget then
      trimLoop budget ms (pyInsert (if result.length = 0 then 0 else 1) m result) (cur + t)
    else result

/-- trim_to_token_budget of ai_service.py. -/
def trim_to_token_budget (messages : List ChatMessage) (budget : Nat) : List ChatMessage :=
  match messages with
  | [] => []
  | m0 :: tl =>
    let total := ((m0 :: tl).map (fun m => estimate_tokens m.content)).sum
    if total ≤ budget then m0 :: tl
    else if m0.role = "system" then
      trimLoop budget tl.reverse [m0] (estimate_tokens m0.content)
    else trimLoop budget (m0 :: tl).reverse [] 0

/-- The LLMErrorType enum of ai_service.py. MODEL_ERROR is the code name of
the classification the spec calls ModelUnavailable. -/
inductive LLMErrorType where
  | rateLimit
  | authError
  | timeout
  | contentBlocked
  | modelError
  | networkError
  | unknown
deriving DecidableEq

/-- Does `needle` occur at the head of `hay`? -/
def startsWithChars : List Char → List Char → Bool
  | [], _ => true
  | _ :: _, [] => false
  | a :: as, b :: bs => a = b && startsWithChars as bs

/-- Does `needle` occur anywhere inside `hay`? -/
def hasSubChars (needle : List Char) : List Char → Bool
  | [] => startsWithChars needle []
  | c :: rest => startsWithChars needle (c :: rest) || hasSubChars needle rest

/-- Python `sub in s` substring test. -/
def strContains (s sub : String) : Bool := hasSubChars sub.data s.data

/-- classify_error of ai_service.py: substring checks over the lowered error
message (the 429/401 checks run on the unlowered text, as in the source). -/
def classify_error (error : String) : LLMErrorType :=
  let msg := pyLower error
  if strContains msg "rate" || strContains msg "limit" || strContains error "429" then
    .rateLimit
  else if strContains msg "api_key" || strContains msg "invalid" || strContains msg "auth"
      || strContains error "401" then
    .authError
  else if strContains msg "timeout" || strContains msg "timed out" then
    .timeout
  else if strContains msg "blocked" || strContains msg "safety" || strContains msg "filter" then
    .contentBlocked
  else if strContains msg "model" && (strContains msg "not found" || strContains msg "unavailable") then
    .modelError
  else if strContains msg "network" || strContains msg "connect" then
    .networkError
  else .unknown

/-- Behaviour of one provider.stream(...) call for the request under study:
the chunks it yields, then either normal completion (error = none) or an
exception carrying the given message. -/
structure ProviderRun where
  chunks : List String
  error : Option String
deriving DecidableEq

/-- One entry of the AIService.providers dict (dict keys are unique), with
its is_available() answer and its stream behaviour for this request. -/
structure Provider where
  name : String
  available : Bool
  run : ProviderRun
deriving DecidableEq

/-- The AIService state consulted by stream(): the providers dict in
insertion order, the current provider name, and the enable_fallback flag. -/
structure StreamConfig where
  providers : List Provider
  currentProvider : Option String
  enableFallback : Bool
deriving DecidableEq

/-- AIService.get_provider by name (dict lookup). -/
def getProviderByName (cfg : StreamConfig) (n : String) : Option Provider :=
  cfg.providers.find? (fun p => p.name = n)

/-- Is an optional provider present and available? -/
def isAvail : Option Provider → Bool
  | some p => p.available
  | none => false

/-- The provider-selection prologue of AIService.stream (lines 563-576):
take the current provider; when it is missing or unavailable and fallback is
enabled, take the first available provider with a different name. -/
def selectPrimary (cfg : StreamConfig) : Option Provider :=
  let p0 := cfg.currentProvider.bind (getProviderByName cfg)
  if isAvail p0 then p0
  else if cfg.enableFallback then
    match (cfg.providers.filter
        (fun p => p.available && !(some p.name == cfg.currentProvider))).head? with
    | some q => some q
    | none => p0
  else p0

/-- The providers tried by the fallback loop of AIService.stream: available
and named differently from the current provider, in dict order. -/
def fallbackCandidates (cfg : StreamConfig) : List Provider :=
  cfg.providers.filter (fun p => p.available && !(some p.name == cfg.currentProvider))

/-- The user-facing terminal message chosen from the classified error type
(lines 619-628; emoji stripped from the literals). -/
def terminalMessage (t : LLMErrorType) (e : String) : String :=
  match t with
  | .rateLimit => "Rate limit reached. Please wait a moment and try again."
  | .authError => "API key error. Please check your configuration."
  | .contentBlocked => "Content was blocked by safety filters."
  | .timeout => "Request timed out. Please try again."
  | _ => "An error occurred: " ++ e

/-- The fallback loop of AIService.stream: each candidate yields its chunks;
the loop returns on the first candidate that completes, otherwise continues,
and after exhausting all candidates yields the terminal message classified
from the original primary error. -/
def runFallbacks (cands : List Provider) (t : LLMErrorType) (e : String) : List String :=
  match cands with
  | [] => [terminalMessage t e]
  | p :: rest =>
    match p.run.error with
    | none => p.run.chunks
    | some _ => p.run.chunks ++ runFallbacks rest t e

/-- Names of the fallback providers actually attempted: all candidates up to
and including the first one that completes. -/
def triedFallbacks : List Provider → List String
  | [] => []
  | p :: rest =>
    match p.run.error with
    | none => [p.name]
    | some _ => p.name :: triedFallbacks rest

/-- The message used when no provider is configured (emoji stripped). -/
def noProviderMessage : String := "No AI provider configured."

/-- The complete sequence of chunks the caller of AIService.stream observes.
The primary provider yields its chunks; on an exception the except block
classifies it and, when fallback is enabled, runs the fallback loop, which
appends to what was already yielded. Message building and trimming do not
affect which chunks are yielded (provider behaviour is abstract input). -/
def streamTrace (cfg : StreamConfig) : List String :=
  match selectPrimary cfg with
  | none => [noProviderMessage]
  | some p =>
    if p.available then
      match p.run.error with
      | none => p.run.chunks
      | some e =>
        if cfg.enableFallback then
          p.run.chunks ++ runFallbacks (fallbackCandidates cfg) (classify_error e) e
        else p.run.chunks ++ [terminalMessage (classify_error e) e]
    else [noProviderMessage]

/-- Names of the fallback providers attempted during streamTrace. -/
def attemptedFallbacks (cfg : StreamConfig) : List String :=
  match selectPrimary cfg with
  | none => []
  | some p =>
    if p.available then
      match p.run.error with
      | none => []
      | some _ => if cfg.enableFallback then triedFallbacks (fallbackCandidates cfg) else []
    else []

/-- The cache-partition loop of EmbeddingService.embed_texts: walk the
enumerated texts, collecting (index, vector) pairs for cache hits and the
uncached texts with their original indices. -/
def partitionCached {V : Type} (cache : String → Option V) :
    List (Nat × String) → List (Nat × V) × List String × List Nat
  | [] => ([], [], [])
  | (i, t) :: rest =>
    let pc := partitionCached cache rest
    match cache t with
    | some v => ((i, v) :: pc.1, pc.2.1, pc.2.2)
    | none => (pc.1, t :: pc.2.1, i :: pc.2.2)

/-- Python list.index: index of the first occurrence. -/
def firstIdxOf (t : String) : List String → Nat
  | [] => 0
  | s :: rest => if s = t then 0 else firstIdxOf t rest + 1

/-- The merge-back loop of embed_texts: each newly embedded (text, vector)
pair is tagged with indices_to_embed[texts_to_embed.index(text)] — the
original index of the FIRST occurrence of that text. -/
def mergeNew {V : Type} (ite : List Nat) (tte : List String) :
    List (String × V) → List (Nat × V)
  | [] => []
  | (t, e) :: rest => (ite.getD (firstIdxOf t tte) 0, e) :: mergeNew ite tte rest

/-- Stable insertion of an (index, vector) pair, placing it after entries
with an equal index: together with a left-to-right fold this models Python's
stable list.sort(key=lambda x: x[0]). -/
def insertByIdx {V : Type} (p : Nat × V) : List (Nat × V) → List (Nat × V)
  | [] => [p]
  | q :: qs => if p.1 < q.1 then p :: q :: qs else q :: insertByIdx p qs

/-- Stable sort by original index. -/
def sortByIdx {V : Type} (l : List (Nat × V)) : List (Nat × V) :=
  l.foldl (fun acc p => insertByIdx p acc) []

/-- EmbeddingService.embed_texts: `cache` is the content-addressed cache
(keyed by text; the md5 key of (model, text) is injective on texts for one
model), `f` is the external embedding model restricted to this batch. -/
def embed_texts {V : Type} (cache : String → Option V) (f : String → V)
    (texts : List String) : List V :=
  if texts = [] then []
  else
    let pc := partitionCached cache texts.enum
    let merged := mergeNew pc.2.2 pc.2.1 (pc.2.1.zip (pc.2.1.map f))
    (sortByIdx (pc.1 ++ merged)).map (fun p => p.2)

/-- Metadata entry of the vector store: the two keys search() reads, each
possibly absent (dict.get with default). -/
structure EntryMeta where
  sourceName : Option String
  chunkId : Option Nat
deriving DecidableEq

/-- State of vector_store.py's VectorStore in its numpy fallback form:
parallel lists of texts, stored (normalized) embeddings and metadata. -/
structure VectorStoreState where
  texts : List String
  embeddings : List (List ℝ)
  metadata : List EntryMeta

/-- A freshly constructed store. -/
def emptyStore : VectorStoreState := ⟨[], [], []⟩

/-- Sum of squares of a vector's entries. -/
def sumSq (v : List ℝ) : ℝ := (v.map (fun x => x * x)).sum

/-- np.linalg.norm: the Euclidean norm. -/
noncomputable def l2norm (v : List ℝ) : ℝ := Real.sqrt (sumSq v)

/-- Row normalization in VectorStore.add: divide by the norm, with a zero
norm replaced by 1 (np.where(norms == 0, 1, norms)), so a zero row is stored
unchanged. -/
noncomputable def normalizeRow (v : List ℝ) : List ℝ :=
  let n := l2norm v
  v.map (fun x => x / (if n = 0 then 1 else n))

/-- VectorStore.add: no-op on an empty batch; otherwise append texts, the
normalized rows, and the given metadata (or empty dicts when the metadata
argument is missing or empty). -/
noncomputable def VectorStore.add (s : VectorStoreState) (texts : List String)
    (embeddings : List (List ℝ)) (metadata : List EntryMeta) : VectorStoreState :=
  if texts.length = 0 then s
  else
    { texts := s.texts ++ texts
      embeddings := s.embeddings ++ embeddings.map normalizeRow
      metadata := s.metadata ++
        (if metadata ≠ [] then metadata else texts.map (fun _ => ⟨none, none⟩)) }

/-- A store produced by a sequence of add calls starting from a fresh store
(each call a triple of texts, embedding rows, metadata). -/
noncomputable def applyAdds (calls : List (List String × List (List ℝ) × List EntryMeta)) :
    VectorStoreState :=
  calls.foldl (fun s c => VectorStore.add s c.1 c.2.1 c.2.2) emptyStore

/-- np.dot of two vectors. -/
def dotProd (v w : List ℝ) : ℝ := ((v.zip w).map (fun p => p.1 * p.2)).sum

/-- Insert index i into an index list that is kept ascending by score, after
any index with an equal score: the insertion step of the insertion sort
numpy's argsort runs on small arrays. -/
noncomputable def insertAscIdx (key : Nat → ℝ) (i : Nat) : List Nat → List Nat
  | [] => [i]
  | j :: js => if key i < key j then i :: j :: js else j :: insertAscIdx key i js

/-- Ascending argsort of the first n scores by left-to-right insertion. -/
noncomputable def argsortAccum (key : Nat → ℝ) (n : Nat) : List Nat :=
  (List.range n).foldl (fun acc i => insertAscIdx key i acc) []

/-- np.argsort over a score list, modelled as an insertion sort. This is
exact for the small arrays evaluated concretely below (numpy's default sort
runs an insertion sort below its small-array cutoff, which is stable); on
larger arrays numpy's quicksort may reorder EQUAL keys, so of the theorems
below only the two-element counterexample depends on the order this model
gives equal keys — every universal statement uses only that the result is
ascending in key, which holds for np.argsort at every size. -/
noncomputable def argsortAsc (scores : List ℝ) : List Nat :=
  argsortAccum (fun n => scores.getD n 0) scores.length

/-- The SearchResult dataclass of vector_store.py. -/
structure SearchResult where
  text : String
  sourceName : String
  chunk_id : Nat
  score : ℝ

/-- The score/index pairs surviving VectorStore.search's ranking pipeline
(numpy fallback): empty-store and zero-norm-query guards, cosine scores
against the normalized query, indices by descending score (argsort reversed)
truncated to top_k, each paired with its score and kept when the score is
not below min_score. -/
noncomputable def scoredIdx (s : VectorStoreState) (q : List ℝ) (top_k : Nat)
    (min_score : ℝ) : List (ℝ × Nat) :=
  if s.texts.length = 0 then []
  else if 0 < l2norm q then
    let qn := q.map (fun x => x / l2norm q)
    let scores := s.embeddings.map (fun v => dotProd v qn)
    let idxs := ((argsortAsc scores).reverse.take top_k)
    (idxs.map (fun i => (scores.getD i 0, i))).filter (fun p => ¬ p.1 < min_score)
  else []

/-- Build one SearchResult from a surviving (score, index) pair: text and
metadata looked up at the index, with dict.get defaults ("unknown" source,
the index itself as chunk_id). -/
noncomputable def mkResult (s : VectorStoreState) (p : ℝ × Nat) : SearchResult :=
  let m := s.metadata.getD p.2 ⟨none, none⟩
  { text := s.texts.getD p.2 ""
    sourceName := m.sourceName.getD "unknown"
    chunk_id := m.chunkId.getD p.2
    score := p.1 }

/-- VectorStore.search (numpy fallback path). -/
noncomputable def VectorStore.search (s : VectorStoreState) (q : List ℝ) (top_k : Nat)
    (min_score : ℝ) : List SearchResult :=
  (scoredIdx s q top_k min_score).map (mkResult s)

/-- Derived form of the trimLoop scan: the messages (given newest first)
accepted before the scan stops, i.e. the longest prefix whose cumulative
token estimate stays within the budget. -/
def acceptedRev (budget : Nat) (cur : Nat) : List ChatMessage → List ChatMessage
  | [] => []
  | m :: ms =>
    let t := estimate_tokens m.content
    if cur + t ≤ budget then m :: acceptedRev budget (cur + t) ms else []

/-- Concrete provider: available, yields one chunk then raises a
rate-limit-classified exception. -/
def groqPartial : Provider := ⟨"groq", true, ⟨["partial"], some "rate limit exceeded"⟩⟩

/-- Concrete provider: available, fails immediately with an
auth-classified exception. -/
def groqAuth : Provider := ⟨"groq", true, ⟨[], some "invalid api_key 401"⟩⟩

/-- Concrete provider: available, completes after yielding one chunk. -/
def geminiOk : Provider := ⟨"gemini", true, ⟨["ok"], none⟩⟩

/-- Service state whose primary fails mid-stream after partial output. -/
def cfgPartial : StreamConfig := ⟨[groqPartial, geminiOk], some "groq", true⟩

/-- Service state whose primary fails with an auth error before any output. -/
def cfgAuth : StreamConfig := ⟨[groqAuth, geminiOk], some "groq", true⟩

/-- Strict lexicographic order on indices by (score, index): the invariant
of the stable ascending argsort when indices are inserted in increasing
order. -/
def keyLT (key : Nat → ℝ) (i j : Nat) : Prop :=
  key i < key j ∨ (key i = key j ∧ i < j)

/-- Every chunk appended by one paragraph-loop iteration passes the
min_chunk_size guard, so the loop preserves the lower bound on emitted
token counts. -/
theorem chunkStep_min_inv (cfg : ChunkingConfig) (src : String) (st : ChunkState)
    (para : String) (h : ∀ c ∈ st.chunks, cfg.minChunkSize ≤ c.token_count) :
    ∀ c ∈ (chunkStep cfg src st para).chunks, cfg.minChunkSize ≤ c.token_count := by
  intro c hc
  unfold chunkStep at hc
  simp only at hc
  split at hc
  · split at hc
    next hmin =>
      simp only [List.mem_append, List.mem_singleton] at hc
      rcases hc with hc | hc
      · exact h c hc
      · subst hc; exact hmin
    next => exact h c hc
  · exact h c hc

/-- The paragraph fold preserves the lower bound on emitted token counts. -/
theorem chunkFold_min_inv (cfg : ChunkingConfig) (src : String) (paras : List String)
    (st : ChunkState) (h : ∀ c ∈ st.chunks, cfg.minChunkSize ≤ c.token_count) :
    ∀ c ∈ (paras.foldl (chunkStep cfg src) st).chunks, cfg.minChunkSize ≤ c.token_count := by
  induction paras generalizing st with
  | nil => exact h
  | cons p ps ih => exact ih _ (chunkStep_min_inv cfg src st p h)

/-- Every chunk chunk_text returns — the trailing one included — has a token
count of at least min_chunk_size. -/
theorem chunk_text_min_inv (cfg : ChunkingConfig) (text src : String) :
    ∀ c ∈ chunk_text cfg text src, cfg.minChunkSize ≤ c.token_count := by
  intro c hc
  unfold chunk_text at hc
  split at hc
  · simp at hc
  · simp only at hc
    split at hc
    next hfin =>
      simp only [List.mem_append, List.mem_singleton] at hc
      rcases hc with hc | hc
      · exact chunkFold_min_inv cfg src _ _ (by simp) c hc
      · subst hc; exact hfin.2
    next => exact chunkFold_min_inv cfg src _ _ (by simp) c hc

/-- C4 (amended): the final chunk is subject to the same min_chunk_size
guard as every other chunk — every chunk chunk_text returns has
token_count at least min_chunk_size, so a trailing chunk whose token
estimate is below min_chunk_size is dropped, not emitted. -/
theorem trailing_chunk_min_bound (cfg : ChunkingConfig) (text src : String) (c : Chunk)
    (hc : c ∈ chunk_text cfg text src) : cfg.minChunkSize ≤ c.token_count :=
  chunk_text_min_inv cfg text src c hc

/-- C4 witness: the bound instantiated on a concrete two-paragraph document. -/
theorem trailing_chunk_min_bound_witness :
    (⟨"bbbb", 14, 20, "doc", 1, 1⟩ : Chunk) ∈
        chunk_text ⟨2, 1, 2, 0⟩ "aaaaaaaaaaaa\n\nbbbb" "doc" ∧
      (ChunkingConfig.mk 2 1 2 0).minChunkSize ≤ (1 : Nat) :=
  ⟨by decide, trailing_chunk_min_bound ⟨2, 1, 2, 0⟩ "aaaaaaaaaaaa\n\nbbbb" "doc"
    ⟨"bbbb", 14, 20, "doc", 1, 1⟩ (by decide)⟩

/-- C4 counterexample: a non-empty single-paragraph document whose token
estimate is below the default min_chunk_size yields NO chunks at all — the
trailing chunk is dropped for being too small, contradicting the claim that
it is always included. -/
theorem trailing_chunk_dropped_cex :
    chunk_text defaultChunkingConfig "Hi" "document" = [] ∧ "Hi" ≠ "" := by
  constructor
  · decide
  · decide

/-- C5 (amended): every chunk except possibly the last satisfies the LOWER
bound min_size ≤ token_estimate; the upper bound max_size can be exceeded
(a single paragraph larger than max_size is never split). -/
theorem non_final_chunk_min_bound (cfg : ChunkingConfig) (text src : String) (c : Chunk)
    (hc : c ∈ (chunk_text cfg text src).dropLast) : cfg.minChunkSize ≤ c.token_count :=
  chunk_text_min_inv cfg text src c ((List.dropLast_sublist _).subset hc)

/-- C5 witness: the lower bound instantiated on a concrete non-final chunk. -/
theorem non_final_chunk_min_bound_witness :
    (⟨"aaaaaaaaaaaa", 0, 14, "doc", 0, 3⟩ : Chunk) ∈
        (chunk_text ⟨2, 1, 2, 0⟩ "aaaaaaaaaaaa\n\nbbbb" "doc").dropLast ∧
      (ChunkingConfig.mk 2 1 2 0).minChunkSize ≤ (3 : Nat) :=
  ⟨by decide, non_final_chunk_min_bound ⟨2, 1, 2, 0⟩ "aaaaaaaaaaaa\n\nbbbb" "doc"
    ⟨"aaaaaaaaaaaa", 0, 14, "doc", 0, 3⟩ (by decide)⟩

/-- C5 counterexample: with the valid configuration target 2, min 1, max 2,
overlap 0 (min ≤ target ≤ max), a 12-character single paragraph becomes a
NON-final chunk of 3 estimated tokens, exceeding max_chunk_size = 2: the
upper half of the claimed bound fails. -/
theorem non_final_chunk_max_cex :
    (chunk_text ⟨2, 1, 2, 0⟩ "aaaaaaaaaaaa\n\nbbbb" "doc").dropLast.map Chunk.token_count
        = [3] ∧
      ¬ (3 : Nat) ≤ (ChunkingConfig.mk 2 1 2 0).maxChunkSize := by
  constructor
  · decide
  · decide

/-- C9 (amended): the chunking service performs no configuration validation
and never clamps: under a malformed configuration with max_size below
min_size, chunk_text still returns chunks normally, every one of them sized
by the malformed values as-is (at least min_size, hence above max_size). -/
theorem malformed_config_no_validation (cfg : ChunkingConfig)
    (hbad : cfg.maxChunkSize < cfg.minChunkSize) (text src : String) (c : Chunk)
    (hc : c ∈ chunk_text cfg text src) :
    cfg.minChunkSize ≤ c.token_count ∧ cfg.maxChunkSize < c.token_count :=
  ⟨chunk_text_min_inv cfg text src c hc,
    lt_of_lt_of_le hbad (chunk_text_min_inv cfg text src c hc)⟩

/-- C9 witness: the malformed configuration min 2 > max 1 instantiated on a
concrete document. -/
theorem malformed_config_no_validation_witness :
    (ChunkingConfig.mk 50 2 1 0).maxChunkSize < (ChunkingConfig.mk 50 2 1 0).minChunkSize ∧
      (ChunkingConfig.mk 50 2 1 0).minChunkSize ≤ (2 : Nat) ∧
        (ChunkingConfig.mk 50 2 1 0).maxChunkSize < (2 : Nat) :=
  ⟨by decide, malformed_config_no_validation ⟨50, 2, 1, 0⟩ (by decide)
    "aaaaaaaa\n\nbbbbbbbb" "doc" ⟨"aaaaaaaa", 0, 10, "doc", 0, 2⟩ (by decide)⟩

/-- C9 counterexample: invoking chunk_text with the malformed configuration
min_size 2 > max_size 1 raises nothing and produces two chunks — there is no
fail-fast ChunkingError and no clamping. -/
theorem malformed_config_chunks_cex :
    chunk_text ⟨50, 2, 1, 0⟩ "aaaaaaaa\n\nbbbbbbbb" "doc" =
      [⟨"aaaaaaaa", 0, 10, "doc", 0, 2⟩, ⟨"bbbbbbbb", 10, 20, "doc", 1, 2⟩] := by
  decide

/-- Closed form of the trimLoop scan when the running result is non-empty:
the head stays in front and each accepted message lands at position 1, so
the accepted messages end up reversed behind the head. -/
theorem trimLoop_cons (budget : Nat) (s : ChatMessage) (ms mid : List ChatMessage)
    (cur : Nat) :
    trimLoop budget ms (s :: mid) cur =
      s :: (acceptedRev budget cur ms).reverse ++ mid := by
  induction ms generalizing mid cur with
  | nil => simp [trimLoop, acceptedRev]
  | cons m ms ih =>
    simp only [trimLoop, acceptedRev]
    split
    · rw [show (if (s :: mid).length = 0 then 0 else 1) = 1 by simp,
        show pyInsert 1 m (s :: mid) = s :: m :: mid from rfl, ih]
      simp
    · simp

/-- Closed form of the trimLoop scan started from an empty result: the first
accepted (newest) message is placed at position 0 and every later accepted
message at position 1, i.e. directly behind it. -/
theorem trimLoop_nil (budget : Nat) (ms : List ChatMessage) (cur : Nat) :
    trimLoop budget ms [] cur =
      match acceptedRev budget cur ms with
      | [] => []
      | a :: as => a :: as.reverse := by
  cases ms with
  | nil => simp [trimLoop, acceptedRev]
  | cons m ms =>
    simp only [trimLoop, acceptedRev]
    split
    · rw [show (if ([] : List ChatMessage).length = 0 then 0 else 1) = 0 by simp,
        show pyInsert 0 m [] = [m] from rfl, trimLoop_cons]
      simp
    · simp

/-- The accepted messages form a prefix of the scanned list. -/
theorem acceptedRev_isPrefix (budget cur : Nat) (ms : List ChatMessage) :
    acceptedRev budget cur ms <+: ms := by
  induction ms generalizing cur with
  | nil => simp [acceptedRev]
  | cons m ms ih =>
    simp only [acceptedRev]
    split
    · obtain ⟨t, ht⟩ := ih (cur + estimate_tokens m.content)
      exact ⟨t, by rw [List.cons_append, ht]⟩
    · exact List.nil_prefix

/-- The reversal of the accepted scan over a reversed list is a drop of the
original list. -/
theorem acceptedRev_reverse_eq_drop (budget cur : Nat) (l : List ChatMessage) :
    ∃ k, (acceptedRev budget cur l.reverse).reverse = l.drop k := by
  rcases acceptedRev_isPrefix budget cur l.reverse with ⟨t, ht⟩
  refine ⟨t.reverse.length, ?_⟩
  have hsplit : l = t.reverse ++ (acceptedRev budget cur l.reverse).reverse := by
    have hrev := congrArg List.reverse ht
    simpa [List.reverse_append] using hrev.symm
  conv_rhs => rw [hsplit]
  rw [List.drop_left]

/-- C6 (amended): when the estimated total tokens exceed the budget, the kept
turns are always the newest ones (the dropped turns are exactly the oldest
non-system turns), but the order of the result depends on the presence of a
system prompt: with a leading system message the result is the system
message followed by a suffix of the remaining turns in their original
relative order; WITHOUT a system message the newest kept turn is moved to
the front, ahead of the remaining kept turns. -/
theorem trim_budget_structure (messages : List ChatMessage) (budget : Nat)
    (hover : ¬ (messages.map (fun m => estimate_tokens m.content)).sum ≤ budget) :
    (∀ m0 tl, messages = m0 :: tl → m0.role = "system" →
      ∃ k, trim_to_token_budget messages budget = m0 :: tl.drop k) ∧
    (∀ m0 tl, messages = m0 :: tl → ¬ m0.role = "system" →
      ∃ k, trim_to_token_budget messages budget =
        (messages.drop k).getLast?.toList ++ (messages.drop k).dropLast) := by
  constructor
  · intro m0 tl hmsg hsys
    subst hmsg
    obtain ⟨k, hk⟩ :=
      acceptedRev_reverse_eq_drop budget (estimate_tokens m0.content) tl
    refine ⟨k, ?_⟩
    simp only [trim_to_token_budget]
    rw [if_neg hover, if_pos hsys, trimLoop_cons]
    simp [hk]
  · intro m0 tl hmsg hsys
    obtain ⟨k, hk⟩ := acceptedRev_reverse_eq_drop budget 0 messages
    refine ⟨k, ?_⟩
    have hloop : trim_to_token_budget messages budget =
        match acceptedRev budget 0 messages.reverse with
        | [] => []
        | a :: as => a :: as.reverse := by
      subst hmsg
      simp only [trim_to_token_budget]
      rw [if_neg hover, if_neg hsys, trimLoop_nil]
    rcases hacc : acceptedRev budget 0 messages.reverse with _ | ⟨a, as⟩
    · rw [hacc] at hloop hk
      rw [hloop, ← hk]
      simp
    · rw [hacc] at hloop hk
      rw [hloop, ← hk]
      simp only [List.reverse_cons]
      rw [List.getLast?_concat, List.dropLast_concat]
      simp

/-- C6 witness: the structure theorem instantiated on a concrete
over-budget window with a leading system prompt. -/
theorem trim_budget_structure_witness :
    ∃ k, trim_to_token_budget
        [⟨"system", "ssssssss"⟩, ⟨"user", "aaaaaaaa"⟩, ⟨"user", "bbbb"⟩, ⟨"user", "cccc"⟩] 4 =
      (⟨"system", "ssssssss"⟩ : ChatMessage) ::
        ([⟨"user", "aaaaaaaa"⟩, ⟨"user", "bbbb"⟩, ⟨"user", "cccc"⟩] : List ChatMessage).drop k :=
  (trim_budget_structure
      [⟨"system", "ssssssss"⟩, ⟨"user", "aaaaaaaa"⟩, ⟨"user", "bbbb"⟩, ⟨"user", "cccc"⟩] 4
      (by decide)).1
    ⟨"system", "ssssssss"⟩ [⟨"user", "aaaaaaaa"⟩, ⟨"user", "bbbb"⟩, ⟨"user", "cccc"⟩]
    rfl rfl

/-- C6 counterexample: three over-budget user turns with no system prompt.
The code returns the newest turn first followed by the second-newest —
which is NOT a suffix of the original window in original relative order,
contradicting the claim for the no-system case. -/
theorem trim_no_system_order_cex :
    trim_to_token_budget
        [⟨"user", "aaaaaaaa"⟩, ⟨"user", "bbbb"⟩, ⟨"user", "cccc"⟩] 2 =
      [⟨"user", "cccc"⟩, ⟨"user", "bbbb"⟩] ∧
    ¬ (trim_to_token_budget
        [⟨"user", "aaaaaaaa"⟩, ⟨"user", "bbbb"⟩, ⟨"user", "cccc"⟩] 2 <:+
      [⟨"user", "aaaaaaaa"⟩, ⟨"user", "bbbb"⟩, ⟨"user", "cccc"⟩]) := by
  constructor
  · decide
  · decide

/-- The list of attempted fallback names is empty exactly on an empty
candidate list. -/
theorem triedFallbacks_eq_nil (l : List Provider) : triedFallbacks l = [] ↔ l = [] := by
  cases l with
  | nil => simp [triedFallbacks]
  | cons p rest =>
    simp only [triedFallbacks]
    cases p.run.error <;> simp

/-- C2 (amended): when the selected primary provider fails, whether a
fallback attempt occurs does not depend on the error classification at all:
a fallback is attempted if and only if enable_fallback is set and another
available provider exists. AuthError and ContentBlocked trigger fallback
exactly like RateLimit or Timeout; the classification only selects the
terminal message text. -/
theorem fallback_trigger_amended (cfg : StreamConfig) (p : Provider) (e : String)
    (hp : selectPrimary cfg = some p) (hav : p.available = true)
    (he : p.run.error = some e) :
    attemptedFallbacks cfg ≠ [] ↔
      cfg.enableFallback = true ∧ fallbackCandidates cfg ≠ [] := by
  unfold attemptedFallbacks
  rw [hp]
  simp only [hav, if_true]
  rw [he]
  cases hfb : cfg.enableFallback with
  | true => simp [triedFallbacks_eq_nil]
  | false => simp

/-- C2 witness: the trigger condition instantiated on a service whose
primary fails with an auth-classified error and which has one available
fallback provider. -/
theorem fallback_trigger_amended_witness :
    attemptedFallbacks cfgAuth ≠ [] ↔
      cfgAuth.enableFallback = true ∧ fallbackCandidates cfgAuth ≠ [] :=
  fallback_trigger_amended cfgAuth groqAuth "invalid api_key 401" (by decide) rfl rfl

/-- C2 counterexample: an error classified as AuthError nonetheless triggers
a fallback attempt (and the fallback output is delivered), contradicting the
claim that AuthError never triggers fallback and is terminal immediately. -/
theorem fallback_on_auth_error_cex :
    classify_error "invalid api_key 401" = LLMErrorType.authError ∧
    attemptedFallbacks cfgAuth = ["gemini"] ∧
    streamTrace cfgAuth = ["ok"] := by
  refine ⟨by decide, by decide, by decide⟩

/-- C3 (amended): a failure of the primary provider AFTER partial output
still triggers the fallback loop: the partial output stays as a prefix of
what the caller sees, and whenever another available provider exists a
fallback attempt occurs, so the caller can receive content chunks from two
different providers in one call. -/
theorem fallback_after_partial_amended (cfg : StreamConfig) (p : Provider) (e : String)
    (hp : selectPrimary cfg = some p) (hav : p.available = true)
    (he : p.run.error = some e) (hfb : cfg.enableFallback = true)
    (_hchunks : p.run.chunks ≠ []) :
    p.run.chunks <+: streamTrace cfg ∧
      (fallbackCandidates cfg ≠ [] → attemptedFallbacks cfg ≠ []) := by
  constructor
  · unfold streamTrace
    rw [hp]
    simp only [hav, if_true]
    rw [he]
    simp only [hfb, if_true]
    exact ⟨_, rfl⟩
  · intro hcand
    unfold attemptedFallbacks
    rw [hp]
    simp only [hav, if_true]
    rw [he]
    simp [hfb, triedFallbacks_eq_nil, hcand]

/-- C3 witness: instantiated on a primary that yields one chunk then fails
with a rate-limit error, with one available fallback provider. -/
theorem fallback_after_partial_amended_witness :
    groqPartial.run.chunks <+: streamTrace cfgPartial ∧
      (fallbackCandidates cfgPartial ≠ [] → attemptedFallbacks cfgPartial ≠ []) :=
  fallback_after_partial_amended cfgPartial groqPartial "rate limit exceeded"
    (by decide) rfl rfl rfl (by decide)

/-- C3 counterexample: the primary yields "partial" and then fails; the
gateway attempts the fallback provider anyway and appends its output, so the
caller sees chunks from two providers and no terminal error — contradicting
the claim that a post-partial failure is terminal with no fallback. -/
theorem fallback_after_partial_cex :
    streamTrace cfgPartial = ["partial", "ok"] ∧
    attemptedFallbacks cfgPartial = ["gemini"] ∧
    classify_error "rate limit exceeded" = LLMErrorType.rateLimit := by
  refine ⟨by decide, by decide, by decide⟩

/-- C7 (code bug): on the input ["aa", "b", "aa"] with an empty cache and
the deterministic embedding model String.length, embed_texts maps the
duplicate text to the first duplicate's original index twice
(indices_to_embed[texts_to_embed.index(text)]), so position 1 receives the
embedding of "aa" instead of the embedding of "b": the output is NOT the
positionwise image of the input, although the merge machinery plainly
intends to restore original input order. -/
theorem embed_texts_duplicate_eval :
    embed_texts (fun _ => (none : Option Nat)) String.length ["aa", "b", "aa"]
        = [2, 2, 1] ∧
      embed_texts (fun _ => (none : Option Nat)) String.length ["aa", "b", "aa"]
        ≠ ["aa", "b", "aa"].map String.length := by
  refine ⟨by decide, by decide⟩

/-- Membership in a stable insertion. -/
theorem mem_insertAscIdx (key : Nat → ℝ) (i x : Nat) (l : List Nat) :
    x ∈ insertAscIdx key i l ↔ x = i ∨ x ∈ l := by
  induction l with
  | nil => simp [insertAscIdx]
  | cons j js ih =>
    simp only [insertAscIdx]
    split
    · simp [or_comm, or_assoc, or_left_comm]
    · simp only [List.mem_cons, ih]
      tauto

/-- Inserting an index larger than everything present preserves strict
(score, index)-lexicographic sortedness. -/
theorem pairwise_insertAscIdx (key : Nat → ℝ) (i : Nat) (l : List Nat)
    (hl : l.Pairwise (keyLT key)) (hbound : ∀ j ∈ l, j < i) :
    (insertAscIdx key i l).Pairwise (keyLT key) := by
  induction l with
  | nil => simp [insertAscIdx]
  | cons j js ih =>
    rw [List.pairwise_cons] at hl
    simp only [insertAscIdx]
    split
    next hlt =>
      refine List.Pairwise.cons ?_ (List.Pairwise.cons hl.1 hl.2)
      intro y hy
      rcases List.mem_cons.1 hy with rfl | hy
      · exact Or.inl hlt
      · rcases hl.1 y hy with h | h
        · exact Or.inl (lt_trans hlt h)
        · exact Or.inl (lt_of_lt_of_eq hlt h.1)
    next hge =>
      refine List.Pairwise.cons ?_ (ih hl.2 (fun x hx => hbound x (List.mem_cons_of_mem j hx)))
      intro y hy
      rcases (mem_insertAscIdx key i y js).1 hy with rfl | hy
      · rcases lt_or_eq_of_le (not_lt.1 hge) with h | h
        · exact Or.inl h
        · exact Or.inr ⟨h, hbound j (List.mem_cons_self _ _)⟩
      · exact hl.1 y hy

/-- Unrolling the argsort fold by one index. -/
theorem argsortAccum_succ (key : Nat → ℝ) (n : Nat) :
    argsortAccum key (n + 1) = insertAscIdx key n (argsortAccum key n) := by
  simp [argsortAccum, List.range_succ]

/-- Every index produced by the argsort fold is in range. -/
theorem argsortAccum_mem_lt (key : Nat → ℝ) (n : Nat) :
    ∀ x ∈ argsortAccum key n, x < n := by
  induction n with
  | zero => simp [argsortAccum]
  | succ n ih =>
    intro x hx
    rw [argsortAccum_succ, mem_insertAscIdx] at hx
    rcases hx with rfl | hx
    · exact Nat.lt_succ_self _
    · exact Nat.lt_succ_of_lt (ih x hx)

/-- The stable ascending argsort is strictly sorted in (score, index)
lexicographic order: ascending by score, ties ascending by index. -/
theorem argsortAccum_pairwise (key : Nat → ℝ) (n : Nat) :
    (argsortAccum key n).Pairwise (keyLT key) := by
  induction n with
  | zero => simp [argsortAccum]
  | succ n ih =>
    rw [argsortAccum_succ]
    exact pairwise_insertAscIdx key n _ ih (argsortAccum_mem_lt key n)

/-- The whole ranking pipeline of search (argsort, reverse, take, pair with
scores, filter by min score) is sorted descending by score; the tie half of
the pairwise relation (descending index) is a property of the insertion-sort
model of argsort and is used by no universal claim theorem — they consume
only the score-descending half, which any ascending argsort yields. -/
theorem rankPipeline_pairwise (scores : List ℝ) (k : Nat) (m : ℝ) :
    (((((argsortAsc scores).reverse.take k).map
          (fun i => (scores.getD i 0, i))).filter
        (fun p => ¬ p.1 < m)).Pairwise
      (fun p1 p2 => p2.1 ≤ p1.1 ∧ (p1.1 = p2.1 → p2.2 < p1.2))) := by
  have h1 : (argsortAsc scores).Pairwise (keyLT (fun n => scores.getD n 0)) :=
    argsortAccum_pairwise _ _
  have h2 : (argsortAsc scores).reverse.Pairwise
      (fun i j => keyLT (fun n => scores.getD n 0) j i) :=
    List.pairwise_reverse.2 h1
  have h3 : ((argsortAsc scores).reverse.take k).Pairwise
      (fun i j => keyLT (fun n => scores.getD n 0) j i) :=
    h2.sublist (List.take_sublist _ _)
  have h4 : (((argsortAsc scores).reverse.take k).map
      (fun i => (scores.getD i 0, i))).Pairwise
      (fun p1 p2 => p2.1 ≤ p1.1 ∧ (p1.1 = p2.1 → p2.2 < p1.2)) := by
    rw [List.pairwise_map]
    refine h3.imp ?_
    intro i j h
    have hb : scores.getD j 0 < scores.getD i 0 ∨
        (scores.getD j 0 = scores.getD i 0 ∧ j < i) := h
    refine ⟨?_, ?_⟩
    · rcases hb with hb | hb
      · exact le_of_lt hb
      · exact le_of_eq hb.1
    · intro heq
      simp only at heq
      rcases hb with hb | hb
      · rw [heq] at hb
        exact absurd hb (lt_irrefl _)
      · exact hb.2
  exact h4.filter _

/-- C1 (amended): for every store state and query with nonzero norm, search
returns at most top_k results, every returned score is at least min_score,
and results are sorted descending by score. The claimed earlier-entry-first
tie-breaking does NOT hold: the code reverses an ascending argsort, which on
a small store (where numpy's argsort is a stable insertion sort) returns the
later-inserted entry first — see the counterexample — and on larger stores
numpy's default quicksort gives no tie-order guarantee at all, so no tie
order is asserted here. -/
theorem search_ranking_amended (s : VectorStoreState) (q : List ℝ) (top_k : Nat)
    (min_score : ℝ) (hq : 0 < l2norm q) :
    (VectorStore.search s q top_k min_score).length ≤ top_k ∧
    (∀ r ∈ VectorStore.search s q top_k min_score, min_score ≤ r.score) ∧
    (VectorStore.search s q top_k min_score).Pairwise
      (fun r1 r2 => r2.score ≤ r1.score) := by
  have hpipe : (scoredIdx s q top_k min_score).Pairwise
      (fun p1 p2 => p2.1 ≤ p1.1 ∧ (p1.1 = p2.1 → p2.2 < p1.2)) := by
    unfold scoredIdx
    by_cases hT : s.texts.length = 0
    · rw [if_pos hT]
      simp
    · rw [if_neg hT, if_pos hq]
      exact rankPipeline_pairwise _ _ _
  have hlen : (scoredIdx s q top_k min_score).length ≤ top_k := by
    unfold scoredIdx
    by_cases hT : s.texts.length = 0
    · rw [if_pos hT]
      simp
    · rw [if_neg hT, if_pos hq]
      refine le_trans (List.length_filter_le _ _) ?_
      rw [List.length_map]
      exact List.length_take_le _ _
  have hmin : ∀ p ∈ scoredIdx s q top_k min_score, min_score ≤ p.1 := by
    intro p hp
    unfold scoredIdx at hp
    by_cases hT : s.texts.length = 0
    · rw [if_pos hT] at hp
      simp at hp
    · rw [if_neg hT, if_pos hq] at hp
      have hf := List.of_mem_filter hp
      simpa [not_lt] using hf
  refine ⟨?_, ?_, ?_⟩
  · unfold VectorStore.search
    rw [List.length_map]
    exact hlen
  · intro r hr
    unfold VectorStore.search at hr
    rcases List.mem_map.1 hr with ⟨p, hp, rfl⟩
    exact hmin p hp
  · unfold VectorStore.search
    rw [List.pairwise_map]
    exact hpipe.imp (fun h => h.1)

/-- C1 witness: the ranking properties instantiated on a two-entry store
holding identical unit vectors, queried with a unit query. -/
theorem search_ranking_amended_witness :
    (VectorStore.search ⟨["t0", "t1"], [[1], [1]], []⟩ [(1:ℝ)] 5 0).length ≤ 5 ∧
    (∀ r ∈ VectorStore.search ⟨["t0", "t1"], [[1], [1]], []⟩ [(1:ℝ)] 5 0,
      (0:ℝ) ≤ r.score) ∧
    (VectorStore.search ⟨["t0", "t1"], [[1], [1]], []⟩ [(1:ℝ)] 5 0).Pairwise
      (fun r1 r2 => r2.score ≤ r1.score) :=
  search_ranking_amended ⟨["t0", "t1"], [[1], [1]], []⟩ [(1:ℝ)] 5 0
    (by simp [l2norm, sumSq])

/-- C1 counterexample: a store holding two entries with IDENTICAL vectors
(inserted as entry 0 then entry 1, no metadata, so chunk_id is the entry
index). Searching with an equal query returns both results with equal score
1, but the LATER-inserted entry (chunk_id 1) comes first: on a two-element
array np.argsort runs numpy's small-array insertion sort, which is stable,
so argsort([1, 1]) is [0, 1] and the [::-1] reversal puts equal scores in
reverse insertion order — contradicting the claimed earlier-entry-first
tie-breaking. -/
theorem search_tie_order_cex :
    (VectorStore.search ⟨["t0", "t1"], [[1], [1]], []⟩ [(1:ℝ)] 5 0).map
        (fun r => (r.score, r.chunk_id)) = [(1, 1), (1, 0)] := by
  have h1 : l2norm [(1:ℝ)] = 1 := by simp [l2norm, sumSq]
  unfold VectorStore.search scoredIdx
  rw [if_neg (by simp)]
  simp only [h1]
  rw [if_pos (by exact one_pos)]
  norm_num [dotProd, argsortAsc, argsortAccum, insertAscIdx, mkResult, List.range_succ]

/-- Sums of squares are non-negative. -/
theorem sumSq_nonneg (v : List ℝ) : 0 ≤ sumSq v := by
  induction v with
  | nil => simp [sumSq]
  | cons x xs ih =>
    simp only [sumSq, List.map_cons, List.sum_cons]
    exact add_nonneg (mul_self_nonneg x) ih

/-- A vector with zero sum of squares is the zero vector. -/
theorem sumSq_eq_zero (v : List ℝ) (h : sumSq v = 0) : ∀ x ∈ v, x = 0 := by
  induction v with
  | nil => simp
  | cons y ys ih =>
    simp only [sumSq, List.map_cons, List.sum_cons] at h
    have h1 : y * y = 0 ∧ (ys.map (fun x => x * x)).sum = 0 :=
      (add_eq_zero_iff_of_nonneg (mul_self_nonneg y) (sumSq_nonneg ys)).1 h
    intro x hx
    rcases List.mem_cons.1 hx with rfl | hx
    · exact mul_self_eq_zero.1 h1.1
    · exact ih h1.2 x hx

/-- The Euclidean norm vanishes exactly on a zero sum of squares. -/
theorem l2norm_eq_zero_iff (v : List ℝ) : l2norm v = 0 ↔ sumSq v = 0 := by
  unfold l2norm
  constructor
  · intro h
    exact le_antisymm (Real.sqrt_eq_zero'.1 h) (sumSq_nonneg v)
  · intro h
    rw [h, Real.sqrt_zero]

/-- Dividing every entry by n divides the sum of squares by n * n. -/
theorem sumSq_map_div (v : List ℝ) (n : ℝ) :
    sumSq (v.map (fun x => x / n)) = sumSq v / (n * n) := by
  induction v with
  | nil => simp [sumSq]
  | cons x xs ih =>
    simp only [sumSq, List.map_cons, List.sum_cons] at ih ⊢
    rw [div_mul_div_comm, ih, add_div]

/-- A row leaving the add normalization either is a unit vector or was (and
stays) the zero vector. -/
theorem normalizeRow_norm (v : List ℝ) :
    l2norm (normalizeRow v) = 1 ∨ ∀ x ∈ normalizeRow v, x = 0 := by
  by_cases h : l2norm v = 0
  · right
    intro x hx
    simp only [normalizeRow, h, if_pos, div_one] at hx
    simp only [List.mem_map] at hx
    obtain ⟨y, hy, rfl⟩ := hx
    have hz := sumSq_eq_zero v ((l2norm_eq_zero_iff v).1 h) y hy
    simp [hz]
  · left
    have hsum : sumSq v ≠ 0 := fun hh => h ((l2norm_eq_zero_iff v).2 hh)
    simp only [normalizeRow, if_neg h]
    unfold l2norm
    rw [sumSq_map_div]
    rw [Real.mul_self_sqrt (sumSq_nonneg v), div_self hsum, Real.sqrt_one]

/-- Any embedding row present after one add call was either present before
or is the normalization of an incoming row. -/
theorem mem_add_embeddings (s : VectorStoreState) (txts : List String)
    (embs : List (List ℝ)) (meta : List EntryMeta) (w : List ℝ)
    (hw : w ∈ (VectorStore.add s txts embs meta).embeddings) :
    w ∈ s.embeddings ∨ ∃ v, w = normalizeRow v := by
  unfold VectorStore.add at hw
  split at hw
  · exact Or.inl hw
  · simp only [List.mem_append, List.mem_map] at hw
    rcases hw with hw | ⟨v, _, rfl⟩
    · exact Or.inl hw
    · exact Or.inr ⟨v, rfl⟩

/-- The unit-or-zero invariant is preserved by any sequence of add calls. -/
theorem addFold_norm_inv (calls : List (List String × List (List ℝ) × List EntryMeta))
    (s : VectorStoreState)
    (hs : ∀ w ∈ s.embeddings, l2norm w = 1 ∨ ∀ x ∈ w, x = 0) :
    ∀ w ∈ (calls.foldl (fun t c => VectorStore.add t c.1 c.2.1 c.2.2) s).embeddings,
      l2norm w = 1 ∨ ∀ x ∈ w, x = 0 := by
  induction calls generalizing s with
  | nil => exact hs
  | cons c cs ih =>
    refine ih _ ?_
    intro w hw
    rcases mem_add_embeddings s c.1 c.2.1 c.2.2 w hw with hw | ⟨v, rfl⟩
    · exact hs w hw
    · exact normalizeRow_norm v

/-- C8 (amended): after any sequence of add calls every stored vector has L2
norm exactly 1 — EXCEPT vectors that had norm zero before normalization,
which are stored unchanged as zero vectors (np.where(norms == 0, 1, norms)
divides them by 1), and therefore keep norm 0, not 1. -/
theorem stored_norm_amended (calls : List (List String × List (List ℝ) × List EntryMeta))
    (w : List ℝ) (hw : w ∈ (applyAdds calls).embeddings) :
    l2norm w = 1 ∨ ∀ x ∈ w, x = 0 :=
  addFold_norm_inv calls emptyStore (by simp [emptyStore]) w hw

/-- C8 witness: the invariant instantiated on the store obtained by adding
the single vector [3]. -/
theorem stored_norm_amended_witness :
    l2norm (normalizeRow [(3:ℝ)]) = 1 ∨ ∀ x ∈ normalizeRow [(3:ℝ)], x = 0 :=
  stored_norm_amended [(["t"], [[3]], [])] (normalizeRow [(3:ℝ)])
    (by simp [applyAdds, VectorStore.add, emptyStore])

/-- C8 counterexample: adding the zero vector stores it unchanged, and its
stored L2 norm is 0, not 1 — the claim fails for vectors of norm zero. -/
theorem zero_vector_stored_cex :
    (applyAdds [(["z"], [[(0:ℝ)]], [])]).embeddings = [[(0:ℝ)]] ∧
      l2norm [(0:ℝ)] ≠ 1 := by
  have h0 : l2norm [(0:ℝ)] = 0 := by simp [l2norm, sumSq]
  constructor
  · simp [applyAdds, VectorStore.add, emptyStore, normalizeRow, h0]
  · rw [h0]
    exact zero_ne_one

/-- C10: searching with a query vector of zero L2 norm returns the empty
result list (the else branch of the norm guard), with no division by zero,
for every store state — non-empty stores included. -/
theorem search_zero_norm_empty (s : VectorStoreState) (q : List ℝ) (top_k : Nat)
    (min_score : ℝ) (h : l2norm q = 0) :
    VectorStore.search s q top_k min_score = [] := by
  unfold VectorStore.search scoredIdx
  by_cases hT : s.texts.length = 0
  · rw [if_pos hT]
    simp
  · rw [if_neg hT, if_neg (by rw [h]; exact lt_irrefl 0)]
    simp

/-- C10 witness: the zero-norm query on a concrete non-empty store. -/
theorem search_zero_norm_empty_witness :
    VectorStore.search ⟨["t"], [[(1:ℝ)]], [⟨none, none⟩]⟩ [(0:ℝ)] 5 0 = [] ∧
      l2norm [(0:ℝ)] = 0 :=
  ⟨search_zero_norm_empty ⟨["t"], [[(1:ℝ)]], [⟨none, none⟩]⟩ [(0:ℝ)] 5 0
      (by simp [l2norm, sumSq]),
   by simp [l2norm, sumSq]⟩

end NexusAI
